import Mathlib

/-!
Verification of the `0khacha/web-scraper` repository core against its
natural-language specification.  The Python source is shallowly embedded:

* `scraper/state_manager.py` — the SQLite-backed visit/session store is
  modelled as in-memory relations (`List VisitRecord`, `List SessionRow`,
  `List SavedItem`); SQL statements become the corresponding pure list
  transformations, and `CURRENT_TIMESTAMP` becomes an explicit `Nat` clock
  argument threaded through each call.
* `scraper/extractor.py` — the pure extraction logic; DOM queries performed
  by BeautifulSoup on one element (`find('img')`, `find('a')`, heading
  scan, `get_text`) are abstracted into a per-element record `HtmlElem`
  holding exactly the values those queries would return, and the price
  regex is implemented character-by-character.
* `scraper/async_scraper.py` — the per-URL `scrape` control flow and the
  `url_pattern` branch of `_find_next_page`; HTTP fetching and extraction
  are passed in as function parameters.
* `scraper/universal_scraper.py` — the page loop of `scrape` with its
  `max_items` truncation; the browser is abstracted to the sequence of
  per-page outcomes it would produce.

Python truthiness on optional strings and dictionaries is modelled
explicitly by `pyTruthy`-style helpers.
-/

namespace WebScraper

/-- Python truthiness of an optional string: `None` and `""` are falsy. -/
def strTruthy : Option String → Bool
  | none => false
  | some s => !(s == "")

/-- Python `a or b` on optional strings (used for
`session_id = session_id or self.session_id`): returns `b` when `a` is
falsy (`None` or `""`). -/
def pyOr (a b : Option String) : Option String :=
  if strTruthy a then a else b

/-! ## State store (`scraper/state_manager.py`)

The `visited_urls` table is created with `url_hash TEXT PRIMARY KEY`
(state_manager.py lines 37-45): the primary key is the hash alone, there
is no composite key over `(url_hash, session_id)`.  An `INSERT` raises
`IntegrityError` exactly when a row with the same `url_hash` already
exists. -/

/-- A row of the `visited_urls` table. -/
structure VisitRecord where
  url_hash : String
  url : String
  session_id : Option String
  visited_at : Nat
  status : String
deriving Repr, DecidableEq

/-- A row of the `sessions` table. -/
structure SessionRow where
  session_id : String
  start_url : String
  started_at : Nat
  completed_at : Option Nat
  status : String
  metadata : Option String
deriving Repr, DecidableEq

/-- A row of the `scraped_items` table (append-only log). -/
structure SavedItem where
  session_id : Option String
  url : String
  data : List (String × String)
  scraped_at : Nat
deriving Repr, DecidableEq

/-- The `StateManager` object: its three tables plus the ambient
`self.session_id`. -/
structure StateManager where
  visited_urls : List VisitRecord
  sessions : List SessionRow
  scraped_items : List SavedItem
  session_id : Option String
deriving Repr, DecidableEq

/-- Models `StateManager._hash_url` (line 86-88): the MD5 hex digest of the
URL.  MD5 itself is not reproduced; its role — a deterministic fingerprint
computed from the URL alone — is kept by an injective encoding of the URL. -/
def hashUrl (url : String) : String :=
  "md5:" ++ url

/-- Number of `visited_urls` rows carrying a given `url_hash`. -/
def countHash (db : List VisitRecord) (h : String) : Nat :=
  (db.filter (fun r => r.url_hash == h)).length

/-- Rows of `visited_urls` carrying a given `url_hash` within one session
(`WHERE url_hash = ? AND session_id = ?`). -/
def countHashInSession (db : List VisitRecord) (h : String) (sid : String) : Nat :=
  (db.filter (fun r => r.url_hash == h && r.session_id == some sid)).length

/-- Models `StateManager.mark_visited` (lines 172-205) acting on the
`visited_urls` table, with the effective session id (after the
`session_id or self.session_id` resolution) and the current timestamp
passed explicitly.  The `INSERT` succeeds when no row has this `url_hash`;
on `IntegrityError` (a row with the same `url_hash` exists, the table's
primary key) the `UPDATE ... SET status = ?, visited_at = CURRENT_TIMESTAMP
WHERE url_hash = ?` branch runs instead. -/
def markVisited (db : List VisitRecord) (url : String) (sid : Option String)
    (now : Nat) (status : String) : List VisitRecord :=
  let h := hashUrl url
  if db.any (fun r => r.url_hash == h) then
    db.map (fun r =>
      if r.url_hash == h then { r with status := status, visited_at := now } else r)
  else
    db ++ [{ url_hash := h, url := url, session_id := sid,
             visited_at := now, status := status }]

/-- `mark_visited` as a method on the whole `StateManager`, including the
`session_id = session_id or self.session_id` resolution (line 182). -/
def StateManager.markVisitedSM (sm : StateManager) (url : String)
    (sid : Option String) (now : Nat) (status : String) : StateManager :=
  { sm with visited_urls := markVisited sm.visited_urls url (pyOr sid sm.session_id) now status }

/-- Models `StateManager.is_visited` (lines 140-170): with a truthy
session id the `COUNT(*)` is restricted to that session, otherwise it is
global over all sessions. -/
def isVisited (db : List VisitRecord) (url : String) (sid : Option String) : Bool :=
  let h := hashUrl url
  if strTruthy sid then
    0 < countHashInSession db h (sid.getD "")
  else
    0 < countHash db h

/-- Models `StateManager.end_session` (lines 120-138): resolve the session
id through `session_id or self.session_id`; if it is falsy return with no
change; otherwise `UPDATE sessions SET completed_at = CURRENT_TIMESTAMP,
status = 'completed' WHERE session_id = ?` — unconditionally, whether or
not the session was already completed. -/
def endSession (sm : StateManager) (sid : Option String) (now : Nat) : StateManager :=
  let resolved := pyOr sid sm.session_id
  if strTruthy resolved then
    { sm with sessions := sm.sessions.map (fun row =>
        if row.session_id == resolved.getD "" then
          { row with completed_at := some now, status := "completed" }
        else row) }
  else sm

/-- Models `StateManager.save_item` (lines 207-230): append one row to the
`scraped_items` log. -/
def saveItem (sm : StateManager) (url : String) (data : List (String × String))
    (sid : Option String) (now : Nat) : StateManager :=
  { sm with scraped_items := sm.scraped_items ++
      [{ session_id := pyOr sid sm.session_id, url := url, data := data, scraped_at := now }] }

/-! ## Extraction engine (`scraper/extractor.py`)

`_heuristically_extract_item` runs four DOM probes on one candidate
element.  The probes themselves (BeautifulSoup `find` / `get` /
`get_text`) are abstracted into an `HtmlElem` record carrying exactly what
each probe would return; the field-building logic and the price regex are
translated literally. -/

/-- The first `<a>` descendant of an element, as seen by the extractor:
its `href` attribute (`none` when absent) and its stripped text. -/
structure AnchorInfo where
  href : Option String
  text : String
deriving Repr, DecidableEq

/-- One candidate item element, abstracting the BeautifulSoup queries of
`_heuristically_extract_item` (extractor.py lines 176-216):
`imgSrc` is `img.get('src') or img.get('data-src')` of the first `<img>`
(`none` when there is no image or both attributes are missing), `anchor`
describes the first `<a>`, `headingTexts` lists the stripped text of the
first match of each of `h1,h2,h3,h4,h5,strong` in that order (absent tags
omitted), and `textContent` is `element.get_text(" ", strip=True)`. -/
structure HtmlElem where
  imgSrc : Option String
  anchor : Option AnchorInfo
  headingTexts : List String
  textContent : String
deriving Repr, DecidableEq

/-- Character class `[\$€£0-9]` of the price regex. -/
def isPriceChar (c : Char) : Bool :=
  c == '$' || c == '€' || c == '£' || c.isDigit

/-- Character class `[.,]` of the price regex. -/
def isSepChar (c : Char) : Bool :=
  c == '.' || c == ','

/-- Whether `re.search(r'[\$€£0-9]+[.,]\d{2}', text)` finds a match: some
position starts one or more `[\$€£0-9]` characters followed by a separator
and two digits.  Because the `+` class and the separator class are
disjoint, backtracking never shortens the greedy run, so a match exists
exactly when some class character is directly followed by `[.,]\d\d`. -/
def hasPriceToken : List Char → Bool
  | c0 :: c1 :: c2 :: c3 :: rest =>
      (isPriceChar c0 && isSepChar c1 && c2.isDigit && c3.isDigit)
        || hasPriceToken (c1 :: c2 :: c3 :: rest)
  | _ => false

/-- `match.group(0)` of the leftmost match of the price regex: at each
start position the greedy `[\$€£0-9]+` takes the maximal class run (the
class and `[.,]` are disjoint, so no backtracking inside the run is
possible), which must be followed by `[.,]\d{2}`. -/
def findPriceToken : List Char → Option (List Char)
  | [] => none
  | c :: cs =>
      if isPriceChar c then
        let run := (c :: cs).takeWhile isPriceChar
        match (c :: cs).dropWhile isPriceChar with
        | s :: d1 :: d2 :: _ =>
            if isSepChar s && d1.isDigit && d2.isDigit then
              some (run ++ [s, d1, d2])
            else findPriceToken cs
        | _ => findPriceToken cs
      else findPriceToken cs

/-- Whether a key is present in an (ordered) Python dict modelled as an
association list. -/
def hasKey (d : List (String × String)) (k : String) : Bool :=
  d.any (fun kv => kv.1 == k)

/-- The first three probes of `Extractor._heuristically_extract_item`
(extractor.py lines 179-207), building the dict in source order: `image`
(when the source attribute is longer than 10 characters), `link` (truthy
`href`), `title` from the anchor text when its length exceeds 3, else the
first non-empty heading text. -/
def heuristicallyExtractBase (el : HtmlElem) : List (String × String) :=
  let d : List (String × String) := []
  let d := match el.imgSrc with
    | some src => if 10 < src.length then d ++ [("image", src)] else d
    | none => d
  let d := match el.anchor with
    | some a =>
        let d := match a.href with
          | some h => if h ≠ "" then d ++ [("link", h)] else d
          | none => d
        if a.text ≠ "" && 3 < a.text.length then d ++ [("title", a.text)] else d
    | none => d
  if hasKey d "title" then d
  else match el.headingTexts.find? (fun t => !(t == "")) with
    | some t => d ++ [("title", t)]
    | none => d

/-- Models `Extractor._heuristically_extract_item` (extractor.py lines
176-216): the three field probes above followed by the price probe
(lines 209-214), which adds `price` holding the matched token when the
regex finds a match in the element text. -/
def heuristicallyExtractItem (el : HtmlElem) : List (String × String) :=
  let d := heuristicallyExtractBase el
  match findPriceToken el.textContent.data with
  | some tok => d ++ [("price", String.mk tok)]
  | none => d

/-- Models the per-candidate acceptance test of
`Extractor._detect_and_extract_list` (extractor.py lines 149-159): sample
the first `min(len(elements), 5)` members, count those whose heuristic
extraction yields at least 2 fields, and accept when
`valid_items / sample_size > 0.6`.  The Python float comparison is
rendered as the exact rational test `5 * valid > 3 * sample_size`; for
every reachable sample size (at most 5) the rounded float quotient and
the exact quotient fall on the same side of `0.6`, so the two tests
agree. -/
def acceptCandidate (elements : List HtmlElem) : Bool :=
  let sampleSize := min elements.length 5
  let valid := ((elements.take sampleSize).filter
      (fun el => 2 ≤ (heuristicallyExtractItem el).length)).length
  3 * sampleSize < 5 * valid

/-- Result type of `Extractor.extract`: a single dict or a list of dicts
(`Union[Dict, List[Dict]]`). -/
inductive ExtractResult where
  | dict : List (String × String) → ExtractResult
  | list : List (List (String × String)) → ExtractResult
deriving Repr, DecidableEq

/-- The values the three strategy bodies of `Extractor.extract` would
produce on the parsed document: what `_extract_with_selectors` returns
(`layer1`), what `_detect_and_extract_list` returns (`layer2`, `none` for
Python `None`), and what `_extract_smart_content` returns (`layer3`).
The dispatcher below is the translation of `extract` itself; the strategy
bodies operate on the parsed soup and are supplied as data. -/
structure ExtractEnv where
  layer1 : ExtractResult
  layer2 : Option (List (List (String × String)))
  layer3 : List (String × String)
deriving Repr, DecidableEq

/-- Models the control flow of `Extractor.extract` (extractor.py lines
21-68).  A falsy `html` (Python `None` or `""`) returns `{}` before any
parsing or strategy runs.  Otherwise, when the config supplies selectors
(`config.get('selectors') or config.get('fields')` truthy), a non-empty
layer-1 list result or a layer-1 dict with some truthy value is returned;
failing that, a truthy layer-2 result is returned; failing that, layer 3. -/
def extract (env : ExtractEnv) (html : Option String) (hasSelectors : Bool) :
    ExtractResult :=
  if !(strTruthy html) then .dict [] else
  let fallback :=
    match env.layer2 with
    | some l => if !l.isEmpty then ExtractResult.list l else .dict env.layer3
    | none => .dict env.layer3
  if hasSelectors then
    match env.layer1 with
    | .list l => if 0 < l.length then .list l else fallback
    | .dict d =>
        if !d.isEmpty && d.any (fun kv => !(kv.2 == "")) then .dict d else fallback
  else fallback

/-! ## `url_pattern` pagination (`scraper/async_scraper.py` lines 321-333)

The configured pattern is a literal string followed by one numeric capture
group `(\d+)` — the shape of the default `r'page=(\d+)'` and of every
pattern the spec discusses.  `re.search` finds the leftmost occurrence of
the literal followed by a maximal digit run; `re.sub` replaces every
non-overlapping occurrence with the fixed replacement string
`f'page={next_page}'` computed from the first match. -/

/-- Strip a literal character sequence from the front of a string,
returning the remainder on success. -/
def stripLit : List Char → List Char → Option (List Char)
  | [], cs => some cs
  | _ :: _, [] => none
  | p :: ps, c :: cs => if p == c then stripLit ps cs else none

/-- Try to match `lit(\d+)` at the very start of `cs`: on success return
the (maximal, greedy) digit run and the remainder after it. -/
def tryAt (lit cs : List Char) : Option (List Char × List Char) :=
  match stripLit lit cs with
  | none => none
  | some rest =>
      let run := rest.takeWhile Char.isDigit
      if run.isEmpty then none else some (run, rest.dropWhile Char.isDigit)

/-- Numeric value of a digit run (what `int(match.group(1))` computes). -/
def digitsVal (l : List Char) : Nat :=
  l.foldl (fun a c => a * 10 + (c.toNat - 48)) 0

/-- `re.search(lit + r'(\d+)', cs)`: the captured number of the leftmost
match, if any. -/
def reSearchNum (lit : List Char) : List Char → Option Nat
  | [] => (tryAt lit []).map (fun p => digitsVal p.1)
  | c :: cs =>
      match tryAt lit (c :: cs) with
      | some p => some (digitsVal p.1)
      | none => reSearchNum lit cs

/-- Worker for `re.sub`: scan left to right, replacing each
non-overlapping leftmost occurrence of `lit(\d+)` by the fixed string
`repl`.  Every step consumes at least one input character (a successful
`tryAt` consumes the literal and a non-empty digit run), so fuel equal to
the input length is always sufficient; the fuel only makes the structural
recursion explicit. -/
def reSubAllFuel (lit repl : List Char) : Nat → List Char → List Char
  | 0, cs => cs
  | _ + 1, [] => []
  | fuel + 1, c :: cs =>
      match tryAt lit (c :: cs) with
      | some p => repl ++ reSubAllFuel lit repl fuel p.2
      | none => c :: reSubAllFuel lit repl fuel cs

/-- `re.sub(lit + r'(\d+)', repl, cs)`: replace every non-overlapping
leftmost occurrence of the pattern by the fixed string `repl`. -/
def reSubAll (lit repl cs : List Char) : List Char :=
  reSubAllFuel lit repl cs.length cs

/-- Models the `url_pattern` branch of `AsyncScraper._find_next_page`
(async_scraper.py lines 321-333) for a pattern `lit(\d+)`: search the
current URL for the pattern; on a match, increment the first captured page
number and `re.sub` the pattern with the literal replacement string
`'page=' + str(next_page)`; no match means no next page (`None`). -/
def findNextPageUrlPattern (lit : String) (currentUrl : String) : Option String :=
  match reSearchNum lit.data currentUrl.data with
  | some currentPage =>
      let nextPage := currentPage + 1
      some (String.mk (reSubAll lit.data ("page=" ++ toString nextPage).data currentUrl.data))
  | none => none

/-! ## Per-URL scrape (`scraper/async_scraper.py` lines 51-122)

HTTP fetching and extraction are collaborators: they enter the model as
function parameters (`fetchResult`, `extractResult`).  The control flow —
the global visited check before fetching, result tagging, state updates on
success and failure — is translated from the source. -/

/-- Python dict assignment `d[k] = v` on an ordered association list:
overwrite an existing binding in place, else append. -/
def dictSet (d : List (String × String)) (k v : String) : List (String × String) :=
  if hasKey d k then d.map (fun kv => if kv.1 == k then (k, v) else kv)
  else d ++ [(k, v)]

/-- The collaborators of `AsyncScraper.scrape`: what `_fetch_page(url)`
would return (HTML text, or the exception message it raises) and what
`Extractor.extract` would return on that HTML under the resolved
selectors/container configuration. -/
structure AsyncEnv where
  fetchResult : String → Except String String
  extractResult : String → ExtractResult

/-- What one `AsyncScraper.scrape(url)` call produces: the returned value,
the list of URLs actually fetched during the call, and the state manager
afterwards. -/
structure ScrapeReturn where
  value : ExtractResult
  fetched : List String
  sm : Option StateManager

/-- Models `AsyncScraper.scrape` (async_scraper.py lines 51-122).  With a
state manager present, `is_visited(url)` is consulted with no session
argument — a global check — and a hit returns the skipped record without
fetching (lines 76-80).  Otherwise the page is fetched and extracted; each
list item (or the single dict) is tagged with `url` and `status =
'success'`, the URL is marked visited with status `'success'` and a
summary is saved; on a fetch/extract exception the URL is marked visited
with status `'failed'` and a failure record is returned. -/
def asyncScrape (env : AsyncEnv) (smOpt : Option StateManager) (url : String)
    (now : Nat) : ScrapeReturn :=
  let visited := match smOpt with
    | some sm => isVisited sm.visited_urls url none
    | none => false
  if visited then
    { value := .dict [("url", url), ("status", "skipped"), ("reason", "already_visited")],
      fetched := [], sm := smOpt }
  else
    match env.fetchResult url with
    | .ok html =>
        match env.extractResult html with
        | .list items =>
            let items := items.map (fun d => dictSet (dictSet d "url" url) "status" "success")
            let sm' := smOpt.map (fun sm =>
              saveItem (sm.markVisitedSM url none now "success") url
                [("item_count", toString items.length), ("type", "list")] none now)
            { value := .list items, fetched := [url], sm := sm' }
        | .dict d =>
            let d := dictSet (dictSet d "url" url) "status" "success"
            let sm' := smOpt.map (fun sm =>
              saveItem (sm.markVisitedSM url none now "success") url d none now)
            { value := .dict d, fetched := [url], sm := sm' }
    | .error e =>
        let sm' := smOpt.map (fun sm => sm.markVisitedSM url none now "failed")
        { value := .dict [("url", url), ("status", "failed"), ("error", e)],
          fetched := [url], sm := sm' }

/-! ## Page loop of `UniversalScraper.scrape`
(`scraper/universal_scraper.py` lines 75-162)

The browser is abstracted to the sequence of per-page outcomes it would
present: for each page, the value `_extract_data` returns (its `items` key
and, for the non-list case, the page dict itself as an opaque value) and
whether a next-page button is found (configured selector or text
fallback). -/

/-- One page as the loop sees it: `itemsVal` is `page_data.get('items')`
(`none` when the key is absent), `selfVal` is the `page_data` value itself
(appended whole when `items` is falsy), and `hasNextButton` says whether
the next-button search succeeds on this page. -/
structure PageData (α : Type) where
  itemsVal : Option (List α)
  selfVal : α
  hasNextButton : Bool

/-- Models the `while page_num <= max_pages` loop of
`UniversalScraper.scrape` (universal_scraper.py lines 75-162), returning
`(all_results, page_num)` as in the final
`{'items': all_results, 'total_pages': page_num}`.  `maxItems` is
`config.get('max_items')` with Python truthiness (`0` meaning
not configured), `hasSel` is `bool(pagination.get('selector'))`.  After
each page: extend `all_results` with a truthy `items` list, else append
the page value; then truncate-and-break when `max_items` is configured and
reached; then paginate when `hasSel or max_pages > 1` and a next button
exists, else break.  `pageAddition` is the accumulation step
(universal_scraper.py lines 88-93): extend with `page_data['items']` when
that key is truthy, else append the page value itself. -/
def pageAddition {α : Type} (acc : List α) (pd : PageData α) : List α :=
  match pd.itemsVal with
  | some l => if l.isEmpty then acc ++ [pd.selfVal] else acc ++ l
  | none => acc ++ [pd.selfVal]

/-- The loop of `UniversalScraper.scrape`, recursing over the page
sequence with the accumulated `all_results` and `page_num` explicit; see
`pageAddition`'s doc comment for the source mapping. -/
def scrapeLoop {α : Type} (maxItems : Nat) (hasSel : Bool) (maxPages : Nat) :
    List (PageData α) → Nat → List α → List α × Nat
  | [], pageNum, acc => (acc, pageNum)
  | pd :: rest, pageNum, acc =>
      if maxPages < pageNum then (acc, pageNum)
      else
        let acc := pageAddition acc pd
        if 0 < maxItems ∧ maxItems ≤ acc.length then (acc.take maxItems, pageNum)
        else if hasSel ∨ 1 < maxPages then
          if pd.hasNextButton then scrapeLoop maxItems hasSel maxPages rest (pageNum + 1) acc
          else (acc, pageNum)
        else (acc, pageNum)

/-- `UniversalScraper.scrape` entered with `page_num = 1` and empty
`all_results`. -/
def universalScrape {α : Type} (maxItems : Nat) (hasSel : Bool) (maxPages : Nat)
    (pages : List (PageData α)) : List α × Nat :=
  scrapeLoop maxItems hasSel maxPages pages 1 []

/-! ## Helper lemmas about the visit store -/

theorem any_hash_iff (db : List VisitRecord) (h : String) :
    (db.any (fun r => r.url_hash == h) = true) ↔ 0 < countHash db h := by
  simp [countHash, List.length_pos, Ne, List.filter_eq_nil_iff, List.any_eq_true]

theorem countHash_eq_zero_iff (db : List VisitRecord) (h : String) :
    countHash db h = 0 ↔ ∀ r ∈ db, r.url_hash ≠ h := by
  simp [countHash, List.length_eq_zero, List.filter_eq_nil_iff]

theorem countHash_map_update (db : List VisitRecord) (hu h' : String)
    (t : Nat) (st : String) :
    countHash (db.map (fun r =>
      if r.url_hash == hu then { r with status := st, visited_at := t } else r)) h' =
    countHash db h' := by
  unfold countHash
  rw [List.filter_map, List.length_map]
  congr 1
  apply List.filter_congr
  intro r _
  by_cases h0 : r.url_hash = hu <;> simp [Function.comp, h0]

theorem countHash_append_single (db : List VisitRecord) (nr : VisitRecord) (h' : String) :
    countHash (db ++ [nr]) h' =
      countHash db h' + (if nr.url_hash = h' then 1 else 0) := by
  by_cases hc : nr.url_hash = h' <;> simp [countHash, List.filter_append, hc]

theorem countHash_markVisited_pos (db : List VisitRecord) (u : String)
    (sid : Option String) (t : Nat) (st : String) :
    0 < countHash (markVisited db u sid t st) (hashUrl u) := by
  unfold markVisited
  by_cases ha : db.any (fun r => r.url_hash == hashUrl u) = true
  · rw [if_pos ha, countHash_map_update]
    exact (any_hash_iff db (hashUrl u)).mp ha
  · rw [if_neg ha, countHash_append_single]
    simp

theorem countHash_markVisited_of_le_one (db : List VisitRecord) (u : String)
    (sid : Option String) (t : Nat) (st : String)
    (hle : countHash db (hashUrl u) ≤ 1) :
    countHash (markVisited db u sid t st) (hashUrl u) = 1 := by
  unfold markVisited
  by_cases ha : db.any (fun r => r.url_hash == hashUrl u) = true
  · rw [if_pos ha, countHash_map_update]
    have := (any_hash_iff db (hashUrl u)).mp ha
    omega
  · rw [if_neg ha, countHash_append_single]
    have : ¬ 0 < countHash db (hashUrl u) := fun hp => ha ((any_hash_iff db _).mpr hp)
    simp
    omega

theorem mem_markVisited_self {db : List VisitRecord} {u : String}
    {sid : Option String} {t : Nat} {st : String} {r : VisitRecord}
    (hr : r ∈ markVisited db u sid t st) (hh : r.url_hash = hashUrl u) :
    r.status = st ∧ r.visited_at = t := by
  unfold markVisited at hr
  by_cases ha : db.any (fun x => x.url_hash == hashUrl u) = true
  · rw [if_pos ha] at hr
    rcases List.mem_map.mp hr with ⟨r0, _, hmap⟩
    by_cases h0 : r0.url_hash = hashUrl u
    · rw [if_pos (by simpa using h0)] at hmap
      rw [← hmap]
      exact ⟨rfl, rfl⟩
    · rw [if_neg (by simpa using h0)] at hmap
      rw [← hmap] at hh
      exact absurd hh h0
  · rw [if_neg ha] at hr
    rcases List.mem_append.mp hr with hin | hnew
    · exfalso
      have hall : ∀ x ∈ db, x.url_hash ≠ hashUrl u := by
        simpa [List.any_eq_true] using ha
      exact hall r hin hh
    · rw [List.mem_singleton.mp hnew]
      exact ⟨rfl, rfl⟩

theorem mem_markVisited_update {db : List VisitRecord} {u : String}
    {sid : Option String} {t : Nat} {st : String} {r : VisitRecord}
    (ha : db.any (fun x => x.url_hash == hashUrl u) = true)
    (hr : r ∈ markVisited db u sid t st) :
    ∃ r0 ∈ db, r.url = r0.url ∧ r.session_id = r0.session_id ∧
      r.url_hash = r0.url_hash := by
  unfold markVisited at hr
  rw [if_pos ha] at hr
  rcases List.mem_map.mp hr with ⟨r0, hr0, hmap⟩
  refine ⟨r0, hr0, ?_⟩
  by_cases h0 : r0.url_hash = hashUrl u
  · rw [if_pos (by simpa using h0)] at hmap
    rw [← hmap]
    exact ⟨rfl, rfl, rfl⟩
  · rw [if_neg (by simpa using h0)] at hmap
    rw [← hmap]
    exact ⟨rfl, rfl, rfl⟩

/-! ## Helper lemmas about the price regex and the extractor -/

theorem isPriceChar_of_isSepChar {x : Char} (h : isSepChar x = true) :
    isPriceChar x = false := by
  have hx : x = '.' ∨ x = ',' := by
    simpa [isSepChar] using h
  rcases hx with hx | hx <;> rw [hx] <;> decide

theorem hasPriceToken_cons (c : Char) {cs : List Char} (h : hasPriceToken cs = true) :
    hasPriceToken (c :: cs) = true := by
  cases cs with
  | nil => simp [hasPriceToken] at h
  | cons c1 t1 =>
      cases t1 with
      | nil => simp [hasPriceToken] at h
      | cons c2 t2 =>
          cases t2 with
          | nil => simp [hasPriceToken] at h
          | cons c3 rest =>
              simp only [hasPriceToken, Bool.or_eq_true] at h ⊢
              exact Or.inr h

theorem hasPriceToken_append_run {run : List Char} {s d1 d2 : Char} {tail : List Char}
    (hrun : run ≠ []) (hclass : ∀ c ∈ run, isPriceChar c = true)
    (hsep : isSepChar s = true) (hd1 : d1.isDigit = true) (hd2 : d2.isDigit = true) :
    hasPriceToken (run ++ s :: d1 :: d2 :: tail) = true := by
  induction run with
  | nil => exact absurd rfl hrun
  | cons x xs ih =>
      cases xs with
      | nil =>
          have hx : isPriceChar x = true := hclass x (by simp)
          simp [hasPriceToken, hx, hsep, hd1, hd2]
      | cons y ys =>
          have htail := ih (by simp) (fun c hc => hclass c (by simp [hc]))
          exact hasPriceToken_cons x htail

theorem findPriceToken_isSome_cons (c : Char) {cs : List Char}
    (h : (findPriceToken cs).isSome = true) :
    (findPriceToken (c :: cs)).isSome = true := by
  unfold findPriceToken
  by_cases hc : isPriceChar c = true
  · simp only [hc, if_true]
    cases hdrop : (c :: cs).dropWhile isPriceChar with
    | nil => exact h
    | cons s t =>
        cases t with
        | nil => exact h
        | cons d1 t2 =>
            cases t2 with
            | nil => exact h
            | cons d2 t3 =>
                by_cases hchk : (isSepChar s && d1.isDigit && d2.isDigit) = true
                · simp [hchk]
                · simp [hchk, h]
  · simp only [hc, if_false, Bool.false_eq_true]
    exact h

theorem hasPriceToken_of_findPriceToken {cs : List Char}
    (h : (findPriceToken cs).isSome = true) : hasPriceToken cs = true := by
  induction cs with
  | nil => simp [findPriceToken] at h
  | cons c cs ih =>
      unfold findPriceToken at h
      by_cases hc : isPriceChar c = true
      · simp only [hc, if_true] at h
        cases hdrop : (c :: cs).dropWhile isPriceChar with
        | nil => rw [hdrop] at h; exact hasPriceToken_cons c (ih h)
        | cons s t =>
            cases t with
            | nil => rw [hdrop] at h; exact hasPriceToken_cons c (ih h)
            | cons d1 t2 =>
                cases t2 with
                | nil => rw [hdrop] at h; exact hasPriceToken_cons c (ih h)
                | cons d2 t3 =>
                    rw [hdrop] at h
                    by_cases hchk : (isSepChar s && d1.isDigit && d2.isDigit) = true
                    · have hsplit : (c :: cs) =
                          ((c :: cs).takeWhile isPriceChar) ++ (s :: d1 :: d2 :: t3) := by
                        rw [← hdrop, List.takeWhile_append_dropWhile]
                      rw [hsplit]
                      simp only [Bool.and_eq_true] at hchk
                      apply hasPriceToken_append_run
                      · simp [List.takeWhile_cons, hc]
                      · exact fun x hx => List.mem_takeWhile_imp hx
                      · exact hchk.1.1
                      · exact hchk.1.2
                      · exact hchk.2
                    · simp only [hchk, if_false, Bool.false_eq_true] at h
                      exact hasPriceToken_cons c (ih h)
      · simp only [hc, if_false, Bool.false_eq_true] at h
        exact hasPriceToken_cons c (ih h)

theorem findPriceToken_isSome_of_has {cs : List Char} (h : hasPriceToken cs = true) :
    (findPriceToken cs).isSome = true := by
  induction cs with
  | nil => simp [hasPriceToken] at h
  | cons c cs ih =>
      cases cs with
      | nil => simp [hasPriceToken] at h
      | cons c1 t1 =>
          cases t1 with
          | nil => simp [hasPriceToken] at h
          | cons c2 t2 =>
              cases t2 with
              | nil => simp [hasPriceToken] at h
              | cons c3 rest =>
                  simp only [hasPriceToken, Bool.or_eq_true, Bool.and_eq_true] at h
                  rcases h with ⟨⟨⟨hc, hs⟩, hd1⟩, hd2⟩ | h
                  · unfold findPriceToken
                    simp only [hc, if_true]
                    have hdrop : (c :: c1 :: c2 :: c3 :: rest).dropWhile isPriceChar =
                        c1 :: c2 :: c3 :: rest := by
                      rw [List.dropWhile_cons_of_pos hc,
                        List.dropWhile_cons_of_neg (by simp [isPriceChar_of_isSepChar hs])]
                    rw [hdrop]
                    simp [hs, hd1, hd2]
                  · exact findPriceToken_isSome_cons c (ih h)

theorem findPriceToken_isSome_iff (cs : List Char) :
    (findPriceToken cs).isSome = hasPriceToken cs := by
  by_cases h : hasPriceToken cs = true
  · rw [h, findPriceToken_isSome_of_has h]
  · rw [Bool.not_eq_true] at h
    rw [h]
    by_contra hne
    rw [Bool.not_eq_false] at hne
    rw [hasPriceToken_of_findPriceToken hne] at h
    simp at h

theorem base_no_price (el : HtmlElem) :
    hasKey (heuristicallyExtractBase el) "price" = false := by
  rcases el with ⟨img, anc, heads, txt⟩
  simp only [heuristicallyExtractBase]
  repeat' split
  all_goals simp [hasKey]

/-! ## Helper lemma about the page loop -/

theorem scrapeLoop_length_le (α : Type) (maxItems : Nat) (hasSel : Bool)
    (maxPages : Nat) (pages : List (PageData α)) (pageNum : Nat) (acc : List α)
    (hm : 0 < maxItems) (hacc : acc.length < maxItems) :
    (scrapeLoop maxItems hasSel maxPages pages pageNum acc).1.length ≤ maxItems := by
  induction pages generalizing pageNum acc with
  | nil => simpa [scrapeLoop] using Nat.le_of_lt hacc
  | cons pd rest ih =>
      simp only [scrapeLoop]
      by_cases h1 : maxPages < pageNum
      · rw [if_pos h1]
        exact Nat.le_of_lt hacc
      · rw [if_neg h1]
        by_cases h2 : 0 < maxItems ∧ maxItems ≤ (pageAddition acc pd).length
        · rw [if_pos h2]
          simp only [List.length_take]
          omega
        · rw [if_neg h2]
          have hlt : (pageAddition acc pd).length < maxItems := by
            rcases Nat.lt_or_ge (pageAddition acc pd).length maxItems with h | h
            · exact h
            · exact absurd ⟨hm, h⟩ h2
          by_cases h3 : hasSel = true ∨ 1 < maxPages
          · rw [if_pos h3]
            cases pd.hasNextButton with
            | false =>
                simp only [Bool.false_eq_true, if_false]
                exact Nat.le_of_lt hlt
            | true =>
                simp only [if_true]
                exact ih (pageNum + 1) (pageAddition acc pd) hlt
          · rw [if_neg h3]
            exact Nat.le_of_lt hlt

/-! ## Claim theorems -/

/-- C1, counterexample.  The claim says that after `mark_visited(u, s1)`
and `mark_visited(u, s2)` for distinct sessions the store holds a visit
record for `u` in each of the two sessions.  On the code, the second call
hits the `url_hash` primary key, takes the update branch, and leaves a
single record still carrying session `s1`: starting from an empty table,
after both calls the count of records for `u` in session `s2` is zero (and
the whole table has exactly one row). -/
theorem c1_counterexample :
    countHashInSession
        (markVisited (markVisited [] "https://e.com/a" (some "s1") 1 "success")
          "https://e.com/a" (some "s2") 2 "success")
        (hashUrl "https://e.com/a") "s2" = 0 ∧
    (markVisited (markVisited [] "https://e.com/a" (some "s1") 1 "success")
          "https://e.com/a" (some "s2") 2 "success").length = 1 := by
  decide

/-- C1, amended.  Visited-URL uniqueness is scoped to `url_hash` alone
(the table's primary key), globally across sessions: for a URL not yet in
the table, marking it in session `s1` and then in session `s2` leaves
exactly one record for that URL, and that record still carries session
`s1` (the second call only updates status and timestamp).  Within a single
session there is therefore also at most one record per `url_hash`. -/
theorem c1_theorem (db : List VisitRecord) (u : String) (s1 s2 : Option String)
    (t1 t2 : Nat) (st1 st2 : String) (h0 : countHash db (hashUrl u) = 0) :
    countHash (markVisited (markVisited db u s1 t1 st1) u s2 t2 st2) (hashUrl u) = 1 ∧
    ∀ r ∈ markVisited (markVisited db u s1 t1 st1) u s2 t2 st2,
      r.url_hash = hashUrl u →
        r.session_id = s1 ∧ r.status = st2 ∧ r.visited_at = t2 := by
  have h1 : countHash (markVisited db u s1 t1 st1) (hashUrl u) = 1 :=
    countHash_markVisited_of_le_one db u s1 t1 st1 (by omega)
  refine ⟨countHash_markVisited_of_le_one _ u s2 t2 st2 (by omega), ?_⟩
  intro r hr hh
  have hstatus := mem_markVisited_self hr hh
  have ha2 : (markVisited db u s1 t1 st1).any (fun x => x.url_hash == hashUrl u) = true :=
    (any_hash_iff _ _).mpr (by omega)
  rcases mem_markVisited_update ha2 hr with ⟨r0, hr0, _, hsid, hhash⟩
  have hh0 : r0.url_hash = hashUrl u := by rw [← hhash]; exact hh
  have ha1 : ¬ (db.any (fun x => x.url_hash == hashUrl u) = true) := by
    intro hc
    have := (any_hash_iff db _).mp hc
    omega
  have hfirst : markVisited db u s1 t1 st1 = db ++
      [{ url_hash := hashUrl u, url := u, session_id := s1,
         visited_at := t1, status := st1 }] := by
    unfold markVisited
    rw [if_neg ha1]
  rw [hfirst] at hr0
  rcases List.mem_append.mp hr0 with hin | hnew
  · exact absurd hh0 ((countHash_eq_zero_iff db _).mp h0 r0 hin)
  · have hr0eq := List.mem_singleton.mp hnew
    refine ⟨?_, hstatus.1, hstatus.2⟩
    rw [hsid, hr0eq]

/-- C1, witness for the amended theorem at a concrete input. -/
theorem c1_witness :
    countHash [] (hashUrl "u") = 0 ∧
    (countHash (markVisited (markVisited [] "u" (some "a") 1 "ok") "u" (some "b") 2 "ko")
        (hashUrl "u") = 1 ∧
     ∀ r ∈ markVisited (markVisited [] "u" (some "a") 1 "ok") "u" (some "b") 2 "ko",
       r.url_hash = hashUrl "u" →
         r.session_id = some "a" ∧ r.status = "ko" ∧ r.visited_at = 2) :=
  ⟨by decide, c1_theorem [] "u" (some "a") (some "b") 1 2 "ok" "ko" (by decide)⟩

/-- C2, counterexample.  The claim says a second `end_session` call
preserves the `completed_at` written by the first call.  On the code the
`UPDATE` runs unconditionally: ending the one-session store at time 1 and
again at time 2 leaves `completed_at = 2`, not the first call's 1. -/
theorem c2_counterexample :
    (endSession (endSession
        { visited_urls := [],
          sessions := [{ session_id := "s", start_url := "u", started_at := 0,
                         completed_at := none, status := "active", metadata := none }],
          scraped_items := [], session_id := none }
        (some "s") 1) (some "s") 2).sessions.map SessionRow.completed_at = [some 2] ∧
    (some 2 : Option Nat) ≠ some 1 := by
  decide

/-- C2, amended.  A second `end_session` call on an already-ended session
is safe (no error) and leaves the status `'completed'`, but it is not a
no-op: it overwrites `completed_at` with its own current timestamp.  The
net effect of ending twice (at `t1`, then `t2`) on the sessions table
equals a single completion stamped at `t2`; no other row or column is
touched. -/
theorem c2_theorem (sm : StateManager) (s : String) (t1 t2 : Nat) (hs : s ≠ "") :
    (endSession (endSession sm (some s) t1) (some s) t2).sessions =
      sm.sessions.map (fun row =>
        if row.session_id == s then
          { row with completed_at := some t2, status := "completed" }
        else row) := by
  have hbeq : (s == "") = false := by
    simpa using hs
  unfold endSession
  simp only [pyOr, strTruthy, hbeq, Bool.not_false, if_true, ite_true, Option.getD_some]
  simp only [List.map_map]
  apply List.map_congr_left
  intro row _
  by_cases hrow : row.session_id = s <;> simp [Function.comp, hrow]

/-- C2, witness for the amended theorem at a concrete input. -/
theorem c2_witness :
    ("s" : String) ≠ "" ∧
    (endSession (endSession
        { visited_urls := [],
          sessions := [{ session_id := "s", start_url := "u", started_at := 0,
                         completed_at := none, status := "active", metadata := none }],
          scraped_items := [], session_id := none }
        (some "s") 1) (some "s") 2).sessions =
      ([{ session_id := "s", start_url := "u", started_at := 0,
          completed_at := none, status := "active",
          metadata := none }] : List SessionRow).map (fun row =>
        if row.session_id == "s" then
          { row with completed_at := some 2, status := "completed" }
        else row) :=
  ⟨by decide,
   c2_theorem
     { visited_urls := [],
       sessions := [{ session_id := "s", start_url := "u", started_at := 0,
                      completed_at := none, status := "active", metadata := none }],
       scraped_items := [], session_id := none } "s" 1 2 (by decide)⟩

/-- C6: `mark_visited` is idempotent per URL.  Starting from a table
satisfying the primary-key invariant (at most one row per `url_hash`), two
successive `mark_visited` calls for the same URL never fail (the model is
a total function: the `IntegrityError` is caught and turned into the
update branch) and leave exactly one visit record for that URL, carrying
the second call's status and timestamp. -/
theorem c6_theorem (db : List VisitRecord) (u : String) (sid : Option String)
    (t1 t2 : Nat) (st1 st2 : String) (hpk : countHash db (hashUrl u) ≤ 1) :
    countHash (markVisited (markVisited db u sid t1 st1) u sid t2 st2) (hashUrl u) = 1 ∧
    ∀ r ∈ markVisited (markVisited db u sid t1 st1) u sid t2 st2,
      r.url_hash = hashUrl u → r.status = st2 ∧ r.visited_at = t2 := by
  have h1 := countHash_markVisited_of_le_one db u sid t1 st1 hpk
  exact ⟨countHash_markVisited_of_le_one _ u sid t2 st2 (by omega),
    fun r hr hh => mem_markVisited_self hr hh⟩

/-- C6, witness at a concrete input. -/
theorem c6_witness :
    countHash [] (hashUrl "u") ≤ 1 ∧
    (countHash (markVisited (markVisited [] "u" (some "a") 1 "success") "u" (some "a") 2 "failed")
        (hashUrl "u") = 1 ∧
     ∀ r ∈ markVisited (markVisited [] "u" (some "a") 1 "success") "u" (some "a") 2 "failed",
       r.url_hash = hashUrl "u" → r.status = "failed" ∧ r.visited_at = 2) :=
  ⟨by decide, c6_theorem [] "u" (some "a") 1 2 "success" "failed" (by decide)⟩

/-- C9: the visited check the async scraper performs before fetching is
global across sessions.  If the store's `visited_urls` table is the result
of marking a URL visited under any session whatsoever (an earlier
session), then `scrape` of that URL returns the record
`{'url': url, 'status': 'skipped', 'reason': 'already_visited'}`, fetches
nothing, and leaves the state unchanged — for every fetch/extract
collaborator. -/
theorem c9_theorem (env : AsyncEnv) (db : List VisitRecord) (u : String)
    (sid : Option String) (t now : Nat) (st : String) (sm : StateManager)
    (hvis : sm.visited_urls = markVisited db u sid t st) :
    asyncScrape env (some sm) u now =
      { value := .dict [("url", u), ("status", "skipped"), ("reason", "already_visited")],
        fetched := [], sm := some sm } := by
  have hpos : 0 < countHash sm.visited_urls (hashUrl u) := by
    rw [hvis]
    exact countHash_markVisited_pos db u sid t st
  have hv : isVisited sm.visited_urls u none = true := by
    simp [isVisited, strTruthy, hpos]
  simp [asyncScrape, hv]

/-- C9, witness at a concrete input. -/
theorem c9_witness :
    (StateManager.mk (markVisited [] "u" (some "old") 0 "success") [] [] none).visited_urls =
        markVisited [] "u" (some "old") 0 "success" ∧
    asyncScrape
        { fetchResult := fun _ => .error "net", extractResult := fun _ => .dict [] }
        (some (StateManager.mk (markVisited [] "u" (some "old") 0 "success") [] [] none))
        "u" 7 =
      { value := .dict [("url", "u"), ("status", "skipped"), ("reason", "already_visited")],
        fetched := [],
        sm := some (StateManager.mk (markVisited [] "u" (some "old") 0 "success") [] [] none) } :=
  ⟨rfl,
   c9_theorem
     { fetchResult := fun _ => .error "net", extractResult := fun _ => .dict [] }
     [] "u" (some "old") 0 7 "success"
     (StateManager.mk (markVisited [] "u" (some "old") 0 "success") [] [] none) rfl⟩

/-- C10: the update branch of `mark_visited` (taken exactly when a record
with the URL's hash exists) is a frame-preserving update: the table keeps
its length, every row keeps its `url`, `session_id` and `url_hash` — so a
re-visit under a different session leaves the original `session_id` — rows
with a different hash are entirely unchanged, and matching rows get the
new status and timestamp. -/
theorem c10_theorem (db : List VisitRecord) (u : String) (sid : Option String)
    (t : Nat) (st : String) (hpos : 0 < countHash db (hashUrl u)) :
    (markVisited db u sid t st).length = db.length ∧
    List.Forall₂ (fun r' r => r'.url = r.url ∧ r'.session_id = r.session_id ∧
        r'.url_hash = r.url_hash ∧
        (r.url_hash ≠ hashUrl u → r' = r) ∧
        (r.url_hash = hashUrl u → r'.status = st ∧ r'.visited_at = t))
      (markVisited db u sid t st) db := by
  have ha : db.any (fun x => x.url_hash == hashUrl u) = true :=
    (any_hash_iff _ _).mpr hpos
  have hform : markVisited db u sid t st = db.map (fun r =>
      if r.url_hash == hashUrl u then { r with status := st, visited_at := t } else r) := by
    unfold markVisited
    rw [if_pos ha]
  rw [hform]
  refine ⟨List.length_map _ _, ?_⟩
  clear ha hform hpos
  induction db with
  | nil => exact List.Forall₂.nil
  | cons r db ih =>
      refine List.Forall₂.cons ?_ ih
      by_cases h0 : r.url_hash = hashUrl u
      · simp [h0]
      · simp [h0]

/-- C10, witness at a concrete input. -/
theorem c10_witness :
    0 < countHash [VisitRecord.mk (hashUrl "u") "u" (some "a") 1 "success"] (hashUrl "u") ∧
    ((markVisited [VisitRecord.mk (hashUrl "u") "u" (some "a") 1 "success"]
        "u" (some "b") 2 "failed").length =
      ([VisitRecord.mk (hashUrl "u") "u" (some "a") 1 "success"] : List VisitRecord).length ∧
     List.Forall₂ (fun r' r => r'.url = r.url ∧ r'.session_id = r.session_id ∧
         r'.url_hash = r.url_hash ∧
         (r.url_hash ≠ hashUrl "u" → r' = r) ∧
         (r.url_hash = hashUrl "u" → r'.status = "failed" ∧ r'.visited_at = 2))
       (markVisited [VisitRecord.mk (hashUrl "u") "u" (some "a") 1 "success"]
         "u" (some "b") 2 "failed")
       [VisitRecord.mk (hashUrl "u") "u" (some "a") 1 "success"]) :=
  ⟨by decide,
   c10_theorem [VisitRecord.mk (hashUrl "u") "u" (some "a") 1 "success"]
     "u" (some "b") 2 "failed" (by decide)⟩

/-- C7: with `max_items` configured (truthy, i.e. positive), the crawl
loop (a) never returns more than `max_items` items, whatever the page
source; (b) whenever the first page alone already yields at least
`max_items` items, the loop returns exactly the first page's accumulation
truncated to `max_items` and stops with `page_num = 1`, fetching no
further page; and (c) concretely, a 10-item-per-page source of 3 pages
with `max_items = 5` returns exactly the first five items of page one and
page counter 1. -/
theorem c7_theorem (α : Type) (maxItems maxPages : Nat) (hasSel : Bool)
    (hm : 0 < maxItems) :
    (∀ pages : List (PageData α),
        (universalScrape maxItems hasSel maxPages pages).1.length ≤ maxItems) ∧
    (∀ (pd : PageData α) (rest : List (PageData α)), 1 ≤ maxPages →
        maxItems ≤ (pageAddition [] pd).length →
        universalScrape maxItems hasSel maxPages (pd :: rest) =
          ((pageAddition [] pd).take maxItems, 1)) ∧
    universalScrape 5 false 50
        [⟨some [0, 1, 2, 3, 4, 5, 6, 7, 8, 9], 999, true⟩,
         ⟨some [10, 11, 12, 13, 14, 15, 16, 17, 18, 19], 999, true⟩,
         ⟨some [20, 21, 22, 23, 24, 25, 26, 27, 28, 29], 999, false⟩] =
      (([0, 1, 2, 3, 4] : List Nat), 1) := by
  refine ⟨?_, ?_, by decide⟩
  · intro pages
    exact scrapeLoop_length_le α maxItems hasSel maxPages pages 1 [] hm
      (by simpa using hm)
  · intro pd rest h1 hfull
    unfold universalScrape
    simp only [scrapeLoop]
    rw [if_neg (by omega), if_pos ⟨hm, hfull⟩]

/-- C7, witness at a concrete input. -/
theorem c7_witness :
    0 < 5 ∧
    ((∀ pages : List (PageData Nat),
        (universalScrape 5 false 50 pages).1.length ≤ 5) ∧
     (∀ (pd : PageData Nat) (rest : List (PageData Nat)), 1 ≤ 50 →
        5 ≤ (pageAddition [] pd).length →
        universalScrape 5 false 50 (pd :: rest) =
          ((pageAddition [] pd).take 5, 1)) ∧
     universalScrape 5 false 50
        [⟨some [0, 1, 2, 3, 4, 5, 6, 7, 8, 9], 999, true⟩,
         ⟨some [10, 11, 12, 13, 14, 15, 16, 17, 18, 19], 999, true⟩,
         ⟨some [20, 21, 22, 23, 24, 25, 26, 27, 28, 29], 999, false⟩] =
      (([0, 1, 2, 3, 4] : List Nat), 1)) :=
  ⟨by decide, c7_theorem Nat 5 50 false (by decide)⟩

/-- C8: for a falsy HTML input — Python `None` or the empty string — and
every configuration, `extract` returns the empty dict `{}` immediately: the
result is the same whatever the three strategy layers would have produced
(they are never consulted), and the function is total (no error). -/
theorem c8_theorem (env : ExtractEnv) (hasSelectors : Bool) :
    extract env none hasSelectors = .dict [] ∧
    extract env (some "") hasSelectors = .dict [] :=
  ⟨rfl, rfl⟩

/-- C3, counterexample.  The claim says a candidate group is accepted
when at least 60% of the sample yields ≥ 2 meaningful fields, and in
particular that 3 of 5 (exactly 60%) is accepted.  The code tests
`valid_items / sample_size > 0.6` strictly, so exactly 60% is rejected:
on a sample of five elements of which exactly three yield two fields
(link + title), the candidate is not accepted. -/
theorem c3_counterexample :
    ([HtmlElem.mk none (some (AnchorInfo.mk (some "/a") "Widget One")) [] "",
      HtmlElem.mk none (some (AnchorInfo.mk (some "/a") "Widget One")) [] "",
      HtmlElem.mk none (some (AnchorInfo.mk (some "/a") "Widget One")) [] "",
      HtmlElem.mk none none [] "",
      HtmlElem.mk none none [] ""].length = 5) ∧
    (([HtmlElem.mk none (some (AnchorInfo.mk (some "/a") "Widget One")) [] "",
       HtmlElem.mk none (some (AnchorInfo.mk (some "/a") "Widget One")) [] "",
       HtmlElem.mk none (some (AnchorInfo.mk (some "/a") "Widget One")) [] "",
       HtmlElem.mk none none [] "",
       HtmlElem.mk none none [] ""].filter
        (fun el => 2 ≤ (heuristicallyExtractItem el).length)).length = 3) ∧
    acceptCandidate
      [HtmlElem.mk none (some (AnchorInfo.mk (some "/a") "Widget One")) [] "",
       HtmlElem.mk none (some (AnchorInfo.mk (some "/a") "Widget One")) [] "",
       HtmlElem.mk none (some (AnchorInfo.mk (some "/a") "Widget One")) [] "",
       HtmlElem.mk none none [] "",
       HtmlElem.mk none none [] ""] = false := by
  decide

/-- C3, amended.  A candidate group is accepted exactly when strictly more
than 60% of its sample (up to 5 members) yields at least 2 meaningful
fields — the source comparison `valid_items / sample_size > 0.6` is
strict, so a sample of 5 with exactly 3 valid members (exactly 60%) is
rejected. -/
theorem c3_theorem (elements : List HtmlElem) (hne : elements ≠ []) :
    acceptCandidate elements = true ↔
      (3 : ℚ) / 5 <
        ((((elements.take (min elements.length 5)).filter
            (fun el => 2 ≤ (heuristicallyExtractItem el).length)).length : ℚ) /
          ((min elements.length 5 : Nat) : ℚ)) := by
  have hnpos : 0 < min elements.length 5 := by
    have := List.length_pos.mpr hne
    omega
  simp only [acceptCandidate]
  rw [decide_eq_true_eq]
  generalize hn : min elements.length 5 = n at hnpos ⊢
  generalize hv : ((elements.take n).filter
      (fun el => 2 ≤ (heuristicallyExtractItem el).length)).length = v
  have hq : (0 : ℚ) < (n : ℚ) := by exact_mod_cast hnpos
  rw [div_lt_div_iff₀ (by norm_num) hq]
  constructor
  · intro h
    have h3 : ((3 * n : Nat) : ℚ) < ((5 * v : Nat) : ℚ) := by exact_mod_cast h
    push_cast at h3
    linarith
  · intro h
    have h3 : ((3 * n : Nat) : ℚ) < ((5 * v : Nat) : ℚ) := by push_cast; linarith
    exact_mod_cast h3

/-- C3, witness for the amended theorem at a concrete input (a singleton
candidate whose only member yields two fields: 1 of 1 valid is strictly
more than 60%, so it is accepted). -/
theorem c3_witness :
    ([HtmlElem.mk none (some (AnchorInfo.mk (some "/a") "Widget One")) [] ""] ≠ []) ∧
    (acceptCandidate
        [HtmlElem.mk none (some (AnchorInfo.mk (some "/a") "Widget One")) [] ""] = true ↔
      (3 : ℚ) / 5 <
        (((([HtmlElem.mk none (some (AnchorInfo.mk (some "/a") "Widget One")) [] ""].take
            (min [HtmlElem.mk none (some (AnchorInfo.mk (some "/a") "Widget One")) [] ""].length 5)).filter
            (fun el => 2 ≤ (heuristicallyExtractItem el).length)).length : ℚ) /
          ((min [HtmlElem.mk none (some (AnchorInfo.mk (some "/a") "Widget One")) [] ""].length 5 : Nat) : ℚ))) :=
  ⟨by decide,
   c3_theorem [HtmlElem.mk none (some (AnchorInfo.mk (some "/a") "Widget One")) [] ""]
     (by decide)⟩

/-- C4, counterexample.  The claim says a price field is produced only for
currency-symbol-prefixed tokens, and that a bare number like `12.34` with
no currency symbol anywhere yields no price.  The regex character class
`[\$€£0-9]+` includes the digits themselves, so the element whose text is
exactly `12.34` — containing no currency symbol — does get a price field
holding `12.34`. -/
theorem c4_counterexample :
    hasKey (heuristicallyExtractItem (HtmlElem.mk none none [] "12.34")) "price" = true ∧
    heuristicallyExtractItem (HtmlElem.mk none none [] "12.34") = [("price", "12.34")] ∧
    ∀ c ∈ ("12.34" : String).data, c ≠ '$' ∧ c ≠ '€' ∧ c ≠ '£' := by
  decide

/-- C4, amended.  A price field is produced exactly when the element text
contains a token matching `[\$€£0-9]+[.,]\d{2}` — one or more characters
that are currency symbols or digits, a dot or comma, and two digits; a
currency prefix is sufficient but not necessary, since a bare two-decimal
number also matches.  Text containing `$12.34` does yield its price. -/
theorem c4_theorem (el : HtmlElem) :
    hasKey (heuristicallyExtractItem el) "price" = hasPriceToken el.textContent.data ∧
    heuristicallyExtractItem (HtmlElem.mk none none [] "Price: $12.34") =
      [("price", "$12.34")] := by
  refine ⟨?_, by decide⟩
  unfold heuristicallyExtractItem
  cases hf : findPriceToken el.textContent.data with
  | none =>
      have hno : hasPriceToken el.textContent.data = false := by
        have hiff := findPriceToken_isSome_iff el.textContent.data
        rw [hf] at hiff
        simpa using hiff.symm
      rw [hno]
      exact base_no_price el
  | some tok =>
      have hyes : hasPriceToken el.textContent.data = true := by
        have hiff := findPriceToken_isSome_iff el.textContent.data
        rw [hf] at hiff
        simpa using hiff.symm
      rw [hyes]
      simp [hasKey]

/-- C5, counterexample.  The claim says the matched portion is substituted
back in the same positional form for every pattern with one numeric
capture group.  The code substitutes the literal string
`f'page={next_page}'` regardless of the pattern: with pattern
`offset=(\d+)` on `https://x.com/a?offset=3` the result is
`https://x.com/a?page=4`, not the in-place increment
`https://x.com/a?offset=4`. -/
theorem c5_counterexample :
    findNextPageUrlPattern "offset=" "https://x.com/a?offset=3" =
        some "https://x.com/a?page=4" ∧
    some "https://x.com/a?page=4" ≠ some ("https://x.com/a?offset=4" : String) := by
  decide

/-- C5, amended.  When the pattern does not match the current URL there is
no next page; when it matches, the next URL is the current URL with every
occurrence of the pattern replaced by the literal text `page=` followed by
the first match's number plus one.  For the pattern `page=(\d+)` this
coincides with incrementing in place: `page=3` yields `page=4`, and again
`page=5`; for other literals (e.g. `offset=`) the replacement text is
still `page=...`. -/
theorem c5_theorem (lit url : String)
    (hnm : reSearchNum lit.data url.data = none) :
    findNextPageUrlPattern lit url = none ∧
    findNextPageUrlPattern "page=" "https://x.com/list?page=3" =
      some "https://x.com/list?page=4" ∧
    findNextPageUrlPattern "page=" "https://x.com/list?page=4" =
      some "https://x.com/list?page=5" ∧
    findNextPageUrlPattern "offset=" "https://x.com/a?offset=3" =
      some "https://x.com/a?page=4" := by
  refine ⟨?_, by decide, by decide, by decide⟩
  unfold findNextPageUrlPattern
  rw [hnm]

/-- C5, witness at a concrete input (a URL the pattern does not match). -/
theorem c5_witness :
    reSearchNum ("q=" : String).data ("https://x.com/list" : String).data = none ∧
    (findNextPageUrlPattern "q=" "https://x.com/list" = none ∧
     findNextPageUrlPattern "page=" "https://x.com/list?page=3" =
       some "https://x.com/list?page=4" ∧
     findNextPageUrlPattern "page=" "https://x.com/list?page=4" =
       some "https://x.com/list?page=5" ∧
     findNextPageUrlPattern "offset=" "https://x.com/a?offset=3" =
       some "https://x.com/a?page=4") :=
  ⟨by decide, c5_theorem "q=" "https://x.com/list" (by decide)⟩

end WebScraper
